import Mathlib

/-!
Shallow embedding of the SotES bitmap resource un/packer
(`unpacker.py`: `unpack` lines 67-239, `pack` lines 242-343).

Buffers are `List Nat` of byte values (each `< 256` for genuine `bytes`
inputs).  Python's arbitrary-precision integers are embedded as `Int`;
Python's `struct.unpack_from`, `struct.pack` and slice semantics are
modelled exactly, including negative-offset resolution from the buffer
end and the `struct.error` raised for unresolvable offsets or
out-of-range packed values.
-/

set_option maxRecDepth 40000

namespace FSU

/-- Error kinds raised by the un/packer.  `structError` stands for an
unhandled Python exception escaping the function (`struct.error` from
`struct.unpack_from` / `struct.pack`, or `IndexError` from list
indexing); the remaining constructors are the `UnpackerError`
subclasses raised explicitly by the source. -/
inductive UErr where
  | incomplete
  | validation
  | invalidBitmap
  | unsupportedBitmap
  | unsupportedFunction
  | structError
deriving DecidableEq, Repr

instance {ε α : Type} [DecidableEq ε] [DecidableEq α] : DecidableEq (Except ε α) :=
  fun a b =>
  match a, b with
  | .error e1, .error e2 =>
    if h : e1 = e2 then .isTrue (by rw [h]) else .isFalse (fun c => h (by injection c))
  | .error _, .ok _ => .isFalse (fun c => Except.noConfusion c)
  | .ok _, .error _ => .isFalse (fun c => Except.noConfusion c)
  | .ok a1, .ok a2 =>
    if h : a1 = a2 then .isTrue (by rw [h]) else .isFalse (fun c => h (by injection c))

/-- Little-endian 16-bit byte encoding (Python `struct.pack('H', n)` payload). -/
def le16 (n : Nat) : List Nat := [n % 256, n / 256 % 256]

/-- Little-endian 32-bit byte encoding (Python `struct.pack('I', n)` payload). -/
def le32 (n : Nat) : List Nat :=
  [n % 256, n / 256 % 256, n / 65536 % 256, n / 16777216 % 256]

/-- Little-endian unsigned 16-bit value of the two bytes at offset `o`. -/
def u16At (l : List Nat) (o : Nat) : Nat := l.getD o 0 + 256 * l.getD (o + 1) 0

/-- Little-endian unsigned 32-bit value of the four bytes at offset `o`. -/
def u32At (l : List Nat) (o : Nat) : Nat :=
  l.getD o 0 + 256 * l.getD (o + 1) 0 + 65536 * l.getD (o + 2) 0 +
    16777216 * l.getD (o + 3) 0

/-- Reinterpret an unsigned 32-bit value as two's-complement signed. -/
def toSigned32 (n : Nat) : Int :=
  if n < 2147483648 then (n : Int) else (n : Int) - 4294967296

/-- Offset resolution of CPython's `struct.unpack_from`: a negative offset
is taken relative to the end of the buffer; an offset below `-len`
raises `struct.error` (`none`). -/
def resolveOff (len : Nat) (off : Int) : Option Nat :=
  if off < 0 then
    if off + len < 0 then none else some (off + len).toNat
  else some off.toNat

/-- `struct.unpack_from` bounds discipline: resolve the offset, then
require `size` bytes to be available from it. -/
def readOff (l : List Nat) (off : Int) (size : Nat) : Option Nat :=
  (resolveOff l.length off).bind fun o =>
    if o + size ≤ l.length then some o else none

/-- `struct.unpack_from('I', l, off)[0]`. -/
def readU32 (l : List Nat) (off : Int) : Option Nat :=
  (readOff l off 4).map (u32At l)

/-- `struct.unpack_from('i', l, off)[0]`. -/
def readI32 (l : List Nat) (off : Int) : Option Int :=
  (readOff l off 4).map fun o => toSigned32 (u32At l o)

/-- Python slice index normalisation for `l[a:b]`. -/
def pyIdx (len : Nat) (i : Int) : Nat :=
  if i < 0 then (i + len).toNat else min i.toNat len

/-- Python slice `l[a:b]` (step 1), with negative bounds resolved from
the end and clamped. -/
def pySlice (l : List Nat) (a b : Int) : List Nat :=
  (l.take (pyIdx l.length b)).drop (pyIdx l.length a)

/-- Python extended slice `l[0::4]`: every 4th element.  The source
iterates `img_color_table[3::4]`, which is `strided4 (tbl.drop 3)`. -/
def strided4 : List Nat → List Nat
  | [] => []
  | a :: [] => [a]
  | a :: _ :: [] => [a]
  | a :: _ :: _ :: [] => [a]
  | a :: _ :: _ :: _ :: t => a :: strided4 t

/-- Line 127: `obf_key = st.unpack_from('I', resource_data, 0x448)[0]`
(the read is in bounds once `len ≥ 0x458`). -/
def obf_key (r : List Nat) : Nat := u32At r 0x448

/-- Line 128: `val_key = st.unpack_from('I', resource_data, 0x438)[0] - obf_key`;
Python subtraction of arbitrary-precision ints, so the result may be negative. -/
def val_key (r : List Nat) : Int := (u32At r 0x438 : Int) - obf_key r

/-- Line 129: `pix_off_key = st.unpack_from('I', resource_data, 0x450)[0] - obf_key`. -/
def pix_off_key (r : List Nat) : Int := (u32At r 0x450 : Int) - obf_key r

/-- Line 135: `width_key = st.unpack_from('I', resource_data, 0x440)[0] - obf_key`. -/
def width_key (r : List Nat) : Int := (u32At r 0x440 : Int) - obf_key r

/-- Line 136: `height_key = st.unpack_from('I', resource_data, 0x018)[0] - obf_key`. -/
def height_key (r : List Nat) : Int := (u32At r 0x018 : Int) - obf_key r

/-- Line 138: `width_off = 4 * width_key + 0x004`. -/
def width_off (r : List Nat) : Int := 4 * width_key r + 0x004

/-- Line 139: `height_off = 4 * height_key + 0x420`. -/
def height_off (r : List Nat) : Int := 4 * height_key r + 0x420

/-- Line 145: `img_width = st.unpack_from('i', resource_data, width_off)[0] - obf_key`;
`none` when the indirect read raises `struct.error`. -/
def img_width (r : List Nat) : Option Int :=
  (readI32 r (width_off r)).map (· - (obf_key r : Int))

/-- Line 146: `img_height = st.unpack_from('i', resource_data, height_off)[0] - obf_key`. -/
def img_height (r : List Nat) : Option Int :=
  (readI32 r (height_off r)).map (· - (obf_key r : Int))

/-- Line 157: `img_color_depth = st.unpack_from('H', ..., 0x430)[0] - (obf_key & 0xFFFF)`. -/
def img_color_depth (r : List Nat) : Int :=
  (u16At r 0x430 : Int) - (obf_key r % 65536 : Nat)

/-- Line 188: `img_pix_off = 0x458 + pix_off_key`. -/
def img_pix_off (r : List Nat) : Int := 0x458 + pix_off_key r

/-- Lines 121-162 of `unpack`: resource identification, dimension
retrieval and the strict-mode dimension/depth checks.  Returns
`(img_width, img_height, img_color_depth)`. -/
def stage_header (r : List Nat) (additional_checks : Bool) :
    Except UErr (Int × Int × Int) :=
  if r.length < 0x458 then .error .incomplete
  else if val_key r ≠ 10001 ∨ pix_off_key r > 128 then .error .validation
  else if (r.length : Int) ≤ max (width_off r) (height_off r) + 4 then .error .incomplete
  else
    match img_width r, img_height r with
    | some w, some h =>
      if additional_checks = true ∧ w ≤ 0 then .error .invalidBitmap
      else if additional_checks = true ∧ h = 0 then .error .invalidBitmap
      else if additional_checks = true ∧
          img_color_depth r ∉ ([1, 4, 8, 16, 24, 32] : List Int) then
        .error .invalidBitmap
      else .ok (w, h, img_color_depth r)
    | _, _ => .error .structError

/-- Lines 166-178 of `unpack`: color-table selection.
`none` models the `UnsupportedBitmapError` raise for depths other
than 8 and 24. -/
def tableSelect (r : List Nat) (always_include_palette : Bool) (d : Int) :
    Option (List Nat × Nat) :=
  if d = 8 then some (pySlice r 0x20 0x420, 0)
  else if d = 24 then
    if always_include_palette = false then some ([], 0)
    else some (pySlice r 0x20 0x420, 256)
  else none

/-- Lines 166-184 of `unpack`: color-table selection plus the
strict-mode reserved-byte ("alpha") scan over `img_color_table[3::4]`. -/
def stage_table (r : List Nat) (additional_checks always_include_palette : Bool)
    (d : Int) : Except UErr (List Nat × Nat) :=
  match tableSelect r always_include_palette d with
  | none => .error .unsupportedBitmap
  | some (tbl, num) =>
    if additional_checks = true ∧ (strided4 (tbl.drop 3)).any (fun x => x != 0) then
      .error .invalidBitmap
    else .ok (tbl, num)

/-- Line 189: `img_pix_size = img_color_depth // 8 * abs(img_width) * abs(img_height)`
(Python floor division). -/
def img_pix_size (w h d : Int) : Nat := (d.fdiv 8).toNat * w.natAbs * h.natAbs

/-- Line 198: `pix_row_raw_size = img_color_depth // 8 * abs(img_width)`. -/
def pix_row_raw_size (w d : Int) : Nat := (d.fdiv 8).toNat * w.natAbs

/-- Line 199: `pix_row_padding = bytes((- pix_row_raw_size) % 4)`. -/
def pix_row_padding (w d : Int) : List Nat :=
  List.replicate ((-(pix_row_raw_size w d : Int)) % 4).toNat 0

/-- Lines 201-211: the pixel rows sliced from the buffer (Python slice
semantics), each with padding appended, the dead `abs(img_height) < 0`
reversal branch kept literally, and the rows joined. -/
def pixArrayOf (r : List Nat) (w h d : Int) : List Nat :=
  let raw := pix_row_raw_size w d
  let rows := (List.range h.natAbs).map fun (i : Nat) =>
    pySlice r (img_pix_off r + (i : Int) * raw) (img_pix_off r + (i : Int) * raw + raw) ++
      pix_row_padding w d
  (if (h.natAbs : Int) < 0 then rows.reverse else rows).flatten

/-- Lines 188-211 of `unpack`: pixel-array extraction with its bounds
check. -/
def stage_pixels (r : List Nat) (w h d : Int) : Except UErr (List Nat) :=
  if (r.length : Int) < img_pix_off r + img_pix_size w h d then .error .incomplete
  else .ok (pixArrayOf r w h d)

/-- Signed-32-bit range test `-2**31 <= v < 2**31`, phrased over the `Int`
constructors so it reduces without unary literal arithmetic. -/
def inI32Range : Int → Bool
  | .ofNat n => n < 2147483648
  | .negSucc n => n < 2147483648

/-- Unsigned-16-bit range test `0 <= v < 2**16`. -/
def inU16Range : Int → Bool
  | .ofNat n => n < 65536
  | .negSucc _ => false

/-- `struct.pack('H', v)` payload with its range check. -/
def packU16 (v : Int) : Option (List Nat) :=
  if inU16Range v then some (le16 v.toNat) else none

/-- `struct.pack('<L', v)` / `('I', v)` payload with its range check. -/
def packU32 (n : Nat) : Option (List Nat) :=
  if n < 4294967296 then some (le32 n) else none

/-- `struct.pack('<l', v)` / `('i', v)` payload with its range check. -/
def packI32 (v : Int) : Option (List Nat) :=
  if inI32Range v then some (le32 (v % 4294967296).toNat) else none

/-- Lines 216-239 of `unpack`: build the bitmap file and info headers
and concatenate `bmp_header + dib_header + img_color_table + img_pix_array`.
`none` models `struct.error` on an out-of-range packed field. -/
def assemble (w h d : Int) (tbl : List Nat) (num : Nat) (arr : List Nat) :
    Option (List Nat) :=
  match packU32 (0x0E + 0x28 + tbl.length + arr.length),
      packU32 (0x0E + 0x28 + tbl.length), packI32 (w.natAbs : Int),
      packI32 (h.natAbs : Int), packU16 d, packU32 arr.length,
      packU32 num with
  | some fsize, some poff, some dibW, some dibH, some dibD, some dibSz,
      some dibN =>
    some ([0x42, 0x4D] ++ fsize ++ le16 0 ++ le16 0 ++ poff ++
      (le32 0x28 ++ dibW ++ dibH ++ le16 1 ++ dibD ++ le32 0 ++ dibSz ++
        le32 0 ++ le32 0 ++ dibN ++ le32 0) ++ tbl ++ arr)
  | _, _, _, _, _, _, _ => none

/-- `unpack(resource_data, additional_checks, always_include_palette)`,
lines 67-239 of `unpacker.py`, as the sequential composition of its
stages. -/
def unpack (resource_data : List Nat) (additional_checks : Bool := true)
    (always_include_palette : Bool := false) : Except UErr (List Nat) :=
  match stage_header resource_data additional_checks with
  | .error e => .error e
  | .ok (w, h, d) =>
    match stage_table resource_data additional_checks always_include_palette d with
    | .error e => .error e
    | .ok (tbl, num) =>
      match stage_pixels resource_data w h d with
      | .error e => .error e
      | .ok arr =>
        match assemble w h d tbl num arr with
        | some out => .ok out
        | none => .error .structError

/-- The image data PIL hands to `pack` after `Image.open` succeeds on a
BMP (`pack` lines 247-324): either a palette image (`mode == 'P'`, with
`palRGB` modelling `palette.mode == 'RGB'`, the palette as RGB triples
from `getpalette()` and `pixels` the row-major top-down palette indices
from `getdata()`), or a direct-color image (`mode == 'RGB'`, `pixels`
the row-major top-down RGB triples). -/
inductive PilImage where
  | P (palRGB : Bool) (width height : Nat) (palette : List (Nat × Nat × Nat))
      (pixels : List Nat)
  | RGB (width height : Nat) (pixels : List (Nat × Nat × Nat))

/-- `bytes.ljust(n)` — pads on the right with ASCII spaces (0x20),
Python's default fill character, NOT with zero bytes. -/
def ljustSp (l : List Nat) (n : Nat) : List Nat :=
  l ++ List.replicate (n - l.length) 0x20

/-- Lines 268-277: one `st.pack('4B', pal[i+2], pal[i+1], pal[i], 0)`
color-table entry, blue-green-red-zero, with the `B` range checks. -/
def palEntry (e : Nat × Nat × Nat) : Option (List Nat) :=
  if e.1 < 256 ∧ e.2.1 < 256 ∧ e.2.2 < 256 then some [e.2.2, e.2.1, e.1, 0]
  else none

/-- Per-element fallible map, modelling a Python loop of fallible
packing steps (the whole loop fails on the first failing element). -/
def mapO {α β : Type} (f : α → Option β) : List α → Option (List β)
  | [] => some []
  | a :: l =>
    match f a, mapO f l with
    | some b, some bs => some (b :: bs)
    | _, _ => none

/-- Lines 268-277: the joined color-table entries of a palette. -/
def palBytes (pal : List (Nat × Nat × Nat)) : Option (List Nat) :=
  (mapO palEntry pal).map List.flatten

/-- Lines 286-293: one 8bpp pixel row,
`st.pack(f"{w}B", *pil_pixels[r*w : r*w + w])` — `struct.error` if the
slice has fewer than `w` entries or a value is out of byte range. -/
def rowP (pix : List Nat) (w r : Nat) : Option (List Nat) :=
  let s := pySlice pix (r * w) (r * w + w)
  if s.length = w ∧ s.all (fun x => decide (x < 256)) then some s else none

/-- Lines 309-319: one 24bpp pixel row; each pixel of the row is indexed
individually (`IndexError` when past the end) and its channels reversed
to blue-green-red, then packed with `B` range checks. -/
def rowRGB (pix : List (Nat × Nat × Nat)) (w r : Nat) : Option (List Nat) :=
  if r * w + w ≤ pix.length then
    let row := (((pix.drop (r * w)).take w).map fun e => [e.2.2, e.2.1, e.1]).flatten
    if row.all (fun x => decide (x < 256)) then some row else none
  else none

/-- Lines 331-343: the canonical zero-key resource container:
filler `bytes(...)` regions interleaved with width (`'i'`, offset 0x04),
the 1024-byte palette (offset 0x20), height (`'i'`, offset 0x420), depth
(`'H'`, offset 0x430), the constant 10001 (`'I'`, offset 0x438) and the
pixel array (offset 0x458). -/
def resourceBody (w h : Nat) (d : Nat) (palette pixels : List Nat) :
    Option (List Nat) :=
  match packI32 (w : Int) with
  | none => none
  | some wb =>
    match packI32 (h : Int) with
    | none => none
    | some hb =>
      match packU16 (d : Int) with
      | none => none
      | some db =>
        match packU32 10001 with
        | none => none
        | some vb =>
          some (List.replicate 0x04 0 ++ wb ++ List.replicate 0x18 0 ++
            palette ++ hb ++ List.replicate 0x0C 0 ++ db ++
            List.replicate 0x06 0 ++ vb ++ List.replicate 0x1C 0 ++ pixels)

/-- Lift an unhandled-Python-exception result into the decoder's error type. -/
def liftPy {α : Type} : Option α → Except UErr α
  | some a => .ok a
  | none => .error .structError

/-- `pack(bitmap_data)`, lines 242-343 of `unpacker.py`, over the image
representation PIL delivers (PIL itself is the external collaborator;
`Image.open` failure and the `PIL_AVAILABLE` gate are upstream of this
model).  Palette path: reject non-RGB palettes and palettes longer than
`3 * 256`; emit blue-green-red-zero entries left-justified to 0x400
bytes (space-filled by `bytes.ljust`); pack one byte per pixel, rows
reversed to bottom-up.  Direct path: 0x400 zero palette bytes, three
bytes per pixel with channels reversed, rows reversed to bottom-up. -/
def pack (img : PilImage) : Except UErr (List Nat) :=
  match img with
  | .P palRGB w h pal pix =>
    if palRGB = false then .error .unsupportedBitmap
    else if 3 * pal.length > 3 * 256 then .error .unsupportedBitmap
    else
      match palBytes pal with
      | none => .error .structError
      | some tblRaw =>
        match mapO (rowP pix w) (List.range h) with
        | none => .error .structError
        | some rows =>
          liftPy (resourceBody w h 8 (ljustSp tblRaw 0x400) rows.reverse.flatten)
  | .RGB w h pix =>
    match mapO (rowRGB pix w) (List.range h) with
    | none => .error .structError
    | some rows =>
      liftPy (resourceBody w h 24 (List.replicate 0x400 0) rows.reverse.flatten)

/-! Concrete buffers used as witnesses and counterexamples, written as a
byte-valued function materialised over `List.range`. -/

/-- Build the byte list of length `n` whose `i`-th byte is `f i`. -/
def bufOf (f : Nat → Nat) (n : Nat) : List Nat := (List.range n).map f

/-- An all-zero buffer of the minimum structurally plausible size 0x458. -/
def zbuf : List Nat := bufOf (fun _ => 0) 0x458

/-- Minimal buffer whose stored depth field de-obfuscates to 8 under a
zero key (all other fields zero, so identification fails). -/
def dbuf8 : List Nat := bufOf (fun i => if i = 0x430 then 8 else 0) 0x458

/-- Zero-key buffer that resolves to a 4 by 4 image of depth 16:
validation constant 10001 at 0x438, zero index keys, width 4 at 0x004,
height 4 at 0x420, depth 16 at 0x430. -/
def buf16 : List Nat := bufOf (fun i =>
  if i = 0x438 then 0x11 else if i = 0x439 then 0x27 else
  if i = 0x004 then 4 else if i = 0x420 then 4 else
  if i = 0x430 then 16 else 0) 0x458

/-- Zero-key 4 by 4 depth-8 buffer whose color table holds the non-zero
byte 7 at reserved position 0x23 (table index 3); 16 pixel bytes follow
at 0x458. -/
def buf7 : List Nat := bufOf (fun i =>
  if i = 0x438 then 0x11 else if i = 0x439 then 0x27 else
  if i = 0x004 then 4 else if i = 0x420 then 4 else
  if i = 0x430 then 8 else
  if i = 0x23 then 7 else 0) (0x458 + 16)

/-- Zero-key 4 by 4 depth-8 buffer with a clean all-zero color table and
pixel bytes 1..16 at offset 0x458. -/
def buf8 : List Nat := bufOf (fun i =>
  if i = 0x438 then 0x11 else if i = 0x439 then 0x27 else
  if i = 0x004 then 4 else if i = 0x420 then 4 else
  if i = 0x430 then 8 else
  if 0x458 ≤ i then i - 0x458 + 1 else 0) (0x458 + 16)

/-- Obfuscation key 5 with stored validation field 10006 and stored
pixel-offset field 4: the de-obfuscated pixel-offset key is the negative
Python integer -1, not the 32-bit wrap 4294967295. -/
def bufNeg : List Nat := bufOf (fun i =>
  if i = 0x448 then 5 else
  if i = 0x438 then 0x16 else if i = 0x439 then 0x27 else
  if i = 0x450 then 4 else 0) 0x458

/-- Obfuscation key 4294957294 (2^32 - 10002) with stored validation
field 0xFFFFFFFF (de-obfuscating to 10001), stored pixel-offset and
height-index fields equal to the key (de-obfuscating to 0), and stored
width-index field 0, so the width offset resolves far below the start of
the buffer. -/
def bufFar : List Nat := bufOf (fun i =>
  if i = 0x448 then 0xEE else if i = 0x449 then 0xD8 else
  if i = 0x44A then 0xFF else if i = 0x44B then 0xFF else
  if 0x438 ≤ i ∧ i < 0x43C then 0xFF else
  if i = 0x450 then 0xEE else if i = 0x451 then 0xD8 else
  if i = 0x452 then 0xFF else if i = 0x453 then 0xFF else
  if i = 0x018 then 0xEE else if i = 0x019 then 0xD8 else
  if i = 0x01A then 0xFF else if i = 0x01B then 0xFF else
  0) 0x458

/-- Obfuscation key 0x45A with stored pixel-offset field 0, so the
de-obfuscated pixel-offset key is -0x45A and the pixel array nominally
starts at offset -2; width and height decode to 4 and the depth to 8. -/
def bufPixNeg : List Nat := bufOf (fun i =>
  if i = 0x448 then 0x5A else if i = 0x449 then 0x04 else
  if i = 0x438 then 0x6B else if i = 0x439 then 0x2B else
  if i = 0x440 then 0x5A else if i = 0x441 then 0x04 else
  if i = 0x018 then 0x5A else if i = 0x019 then 0x04 else
  if i = 0x004 then 0x5E else if i = 0x005 then 0x04 else
  if i = 0x420 then 0x5E else if i = 0x421 then 0x04 else
  if i = 0x430 then 0x62 else if i = 0x431 then 0x04 else
  0) 0x458

/-- A 4 by 4 palette image with a single RGB palette entry (1, 2, 3) and
all pixel indices 0: a supported image per the round-trip claim. -/
def cimg1 : PilImage := .P true 4 4 [(1, 2, 3)] (List.replicate 16 0)

/-- The resource `pack` emits for `cimg1`. -/
def packed1 : List Nat := (pack cimg1).toOption.getD []

/-- The width PIL reports for an image (`pil_img.size`). -/
def pilWidth : PilImage → Nat
  | .P _ w _ _ _ => w
  | .RGB w _ _ => w

/-- The height PIL reports for an image (`pil_img.size`). -/
def pilHeight : PilImage → Nat
  | .P _ _ h _ _ => h
  | .RGB _ h _ => h

/-- The color depth `pack` assigns to an image mode. -/
def pilDepth : PilImage → Nat
  | .P _ _ _ _ _ => 8
  | .RGB _ _ _ => 24

/-- The bitmap bytes the lenient decode of `buf7` produces. -/
def out7 : List Nat :=
  (assemble 4 4 8 (pySlice buf7 0x20 0x420) 0 (pixArrayOf buf7 4 4 8)).getD []

/-- The bitmap bytes the strict decode of `buf8` produces. -/
def out8 : List Nat := (unpack buf8 true false).toOption.getD []

/-- A 4 by 4 palette image with a full 256-entry palette. -/
def cimg256 : PilImage :=
  .P true 4 4 (List.replicate 256 (9, 8, 7)) (List.replicate 16 5)

/-- A 4 by 4 direct-RGB image. -/
def cimg24 : PilImage :=
  .RGB 4 4 ((List.range 16).map fun i => (i, i + 1, i + 2))

/-! Claim-side (specification-language) definitions, written from the
claims' own words, to be compared with the source-derived functions. -/

/-- The 32-bit wrapped subtraction `(a - b) mod 2^32` that claim C2
asserts for every key subtraction. -/
def wrapSub32 (a b : Nat) : Int := ((a : Int) - b) % 4294967296

/-- The 16-bit wrapped subtraction `(a - b) mod 2^16`. -/
def wrapSub16 (a b : Nat) : Int := ((a : Int) - b) % 65536

/-- Claim C4's width-offset formula `4 * (u32le(0x440) - key) + 0x004`. -/
def widthOffSpec (r : List Nat) : Int := 4 * ((u32At r 0x440 : Int) - obf_key r) + 0x004

/-- Claim C4's height-offset formula `4 * (u32le(0x018) - key) + 0x420`. -/
def heightOffSpec (r : List Nat) : Int := 4 * ((u32At r 0x018 : Int) - obf_key r) + 0x420

/-- Claim C5's pixel array: `n` rows of `raw` bytes read consecutively
from offset `p`, each row padded with `pad` zero bytes, concatenated in
read order. -/
def pixArraySpec (r : List Nat) (p raw pad n : Nat) : List Nat :=
  ((List.range n).map fun i =>
    (r.drop (p + i * raw)).take raw ++ List.replicate pad 0).flatten

/-- Claim C8's 14-byte file header: signature "BM", total size
`14 + 40 + tl + pl`, two zero 16-bit reserved fields, pixel-array offset
`14 + 40 + tl`. -/
def fileHeaderSpec (tl pl : Nat) : List Nat :=
  [0x42, 0x4D] ++ le32 (14 + 40 + tl + pl) ++ le16 0 ++ le16 0 ++ le32 (14 + 40 + tl)

/-- Claim C8's 40-byte info header: header size 40, width, height,
planes 1, depth, compression 0, image byte size, zero resolutions,
palette-color count, zero important colors. -/
def infoHeaderSpec (w h d pl num : Nat) : List Nat :=
  le32 40 ++ le32 w ++ le32 h ++ le16 1 ++ le16 d ++ le32 0 ++ le32 pl ++
    le32 0 ++ le32 0 ++ le32 num ++ le32 0

/-- Claim C9's named-field positions below 0x458: width 0x004-0x008,
color table 0x020-0x420, height 0x420-0x424, depth 0x430-0x432,
validation constant 0x438-0x43C. -/
def namedFieldC9 (i : Nat) : Prop :=
  (0x004 ≤ i ∧ i < 0x008) ∨ (0x020 ≤ i ∧ i < 0x420) ∨
    (0x420 ≤ i ∧ i < 0x424) ∨ (0x430 ≤ i ∧ i < 0x432) ∨
    (0x438 ≤ i ∧ i < 0x43C)

instance (i : Nat) : Decidable (namedFieldC9 i) := by
  unfold namedFieldC9; infer_instance

/-! Helper lemmas. -/

theorem unpack_of_header_error {r : List Nat} {ac : Bool} (ap : Bool) {e : UErr}
    (hh : stage_header r ac = .error e) : unpack r ac ap = .error e := by
  unfold unpack
  rw [hh]

/-- Inversion of a successful header stage: the returned triple is the
`img_width` / `img_height` / `img_color_depth` of the buffer, and every
identification and strict-mode check passed. -/
theorem stage_header_ok_spec {r : List Nat} {ac : Bool} {w h d : Int}
    (hh : stage_header r ac = .ok (w, h, d)) :
    img_width r = some w ∧ img_height r = some h ∧ d = img_color_depth r ∧
      0x458 ≤ r.length ∧ val_key r = 10001 ∧ pix_off_key r ≤ 128 ∧
      max (width_off r) (height_off r) + 4 < (r.length : Int) := by
  unfold stage_header at hh
  split at hh
  · exact absurd hh (by simp)
  split at hh
  · exact absurd hh (by simp)
  split at hh
  · exact absurd hh (by simp)
  rename_i h1 h2 h3
  push_neg at h2
  push_neg at h3
  split at hh
  · rename_i w' h' hw hhe
    split at hh
    · exact absurd hh (by simp)
    split at hh
    · exact absurd hh (by simp)
    split at hh
    · exact absurd hh (by simp)
    have hinj := hh
    simp only [Except.ok.injEq, Prod.mk.injEq] at hinj
    obtain ⟨e1, e2, e3⟩ := hinj
    exact ⟨by rw [hw, e1], by rw [hhe, e2], e3.symm, by omega, h2.1, h2.2, h3⟩
  · exact absurd hh (by simp)

/-! ### Claim C3: identification-step error kinds. -/

/-- C3.  A buffer shorter than 0x458 bytes fails with the Incomplete
kind; a buffer of at least 0x458 bytes whose de-obfuscated validation
constant differs from 10001 or whose de-obfuscated pixel-offset key
exceeds 128 fails with the Validation kind. -/
theorem C3_identification_errors (r : List Nat) (ac ap : Bool) :
    (r.length < 0x458 → unpack r ac ap = .error .incomplete) ∧
    (0x458 ≤ r.length → (val_key r ≠ 10001 ∨ 128 < pix_off_key r) →
      unpack r ac ap = .error .validation) := by
  constructor
  · intro h
    refine unpack_of_header_error ap ?_
    unfold stage_header
    rw [if_pos h]
  · intro h1 h2
    refine unpack_of_header_error ap ?_
    unfold stage_header
    rw [if_neg (by omega), if_pos h2]

theorem C3_identification_errors_witness :
    unpack [] true false = .error .incomplete ∧
    unpack zbuf true false = .error .validation :=
  ⟨(C3_identification_errors [] true false).1 (by decide),
   (C3_identification_errors zbuf true false).2 (by decide)
     (Or.inl (by decide))⟩

/-! ### Claim C6: unsupported color depths. -/

/-- C6.  Any buffer that reaches the color-table stage with a
de-obfuscated depth other than 8 and 24 (depth 16 in particular) fails
with the UnsupportedBitmap kind, in strict and lenient mode alike. -/
theorem C6_unsupported_depth (r : List Nat) (ac ap : Bool) (w h d : Int)
    (hh : stage_header r ac = .ok (w, h, d)) (h8 : d ≠ 8) (h24 : d ≠ 24) :
    unpack r ac ap = .error .unsupportedBitmap := by
  have ht : stage_table r ac ap d = .error .unsupportedBitmap := by
    unfold stage_table tableSelect
    rw [if_neg h8, if_neg h24]
  simp only [unpack, hh, ht]

theorem C6_unsupported_depth_witness :
    unpack buf16 true false = .error .unsupportedBitmap ∧
    unpack buf16 false false = .error .unsupportedBitmap :=
  ⟨C6_unsupported_depth buf16 true false 4 4 16 rfl (by decide) (by decide),
   C6_unsupported_depth buf16 false false 4 4 16 rfl (by decide) (by decide)⟩

/-! ### Claim C10: the always-include-palette flag is inert at depth 8. -/

/-- C10.  For any buffer whose de-obfuscated color depth is 8, `unpack`
returns the same result for either value of the always-include-palette
flag, under either strict setting. -/
theorem C10_palette_flag_inert_at_depth8 (r : List Nat) (ac ap1 ap2 : Bool)
    (hd : img_color_depth r = 8) :
    unpack r ac ap1 = unpack r ac ap2 := by
  cases hh : stage_header r ac with
  | error e => simp only [unpack, hh]
  | ok t =>
    obtain ⟨w, h, d⟩ := t
    obtain ⟨-, -, hd', -⟩ := stage_header_ok_spec hh
    have hd8 : d = 8 := by rw [hd', hd]
    subst hd8
    have ht : stage_table r ac ap1 8 = stage_table r ac ap2 8 := by
      simp [stage_table, tableSelect]
    simp only [unpack, hh, ht]

theorem C10_palette_flag_inert_at_depth8_witness :
    unpack dbuf8 true true = unpack dbuf8 true false :=
  C10_palette_flag_inert_at_depth8 dbuf8 true true false (by decide)

/-! ### Claim C2: the key subtractions do not wrap. -/

theorem stage_table_ne_validation (r : List Nat) (ac ap : Bool) (d : Int) :
    stage_table r ac ap d ≠ .error .validation := by
  unfold stage_table
  split
  · simp
  · split
    · simp
    · simp

theorem stage_pixels_ne_validation (r : List Nat) (w h d : Int) :
    stage_pixels r w h d ≠ .error .validation := by
  intro hx
  unfold stage_pixels at hx
  split at hx <;> simp at hx

theorem stage_header_validation_iff {r : List Nat} {ac : Bool}
    (hlen : 0x458 ≤ r.length) :
    stage_header r ac = .error .validation ↔
      (val_key r ≠ 10001 ∨ 128 < pix_off_key r) := by
  unfold stage_header
  rw [if_neg (by omega)]
  by_cases h2 : val_key r ≠ 10001 ∨ pix_off_key r > 128
  · rw [if_pos h2]
    simp [h2]
  · rw [if_neg h2]
    constructor
    · intro hx
      exfalso
      split at hx
      · exact absurd hx (by simp)
      · split at hx
        · split at hx
          · exact absurd hx (by simp)
          · split at hx
            · exact absurd hx (by simp)
            · split at hx
              · exact absurd hx (by simp)
              · exact absurd hx (by simp)
        · exact absurd hx (by simp)
    · intro hx
      exact absurd hx h2

theorem unpack_validation_iff {r : List Nat} (ac ap : Bool)
    (hlen : 0x458 ≤ r.length) :
    unpack r ac ap = .error .validation ↔
      (val_key r ≠ 10001 ∨ 128 < pix_off_key r) := by
  constructor
  · intro hu
    cases hh : stage_header r ac with
    | error e =>
      rw [unpack_of_header_error ap hh] at hu
      injection hu with he
      rw [he] at hh
      exact (stage_header_validation_iff hlen).mp hh
    | ok t =>
      obtain ⟨w, h, d⟩ := t
      exfalso
      simp only [unpack, hh] at hu
      cases ht : stage_table r ac ap d with
      | error e' =>
        simp only [ht] at hu
        injection hu with he'
        rw [he'] at ht
        exact stage_table_ne_validation r ac ap d ht
      | ok t2 =>
        obtain ⟨tbl, num⟩ := t2
        cases hp : stage_pixels r w h d with
        | error e2 =>
          simp only [ht, hp] at hu
          injection hu with he2
          rw [he2] at hp
          exact stage_pixels_ne_validation r w h d hp
        | ok arr =>
          cases ha : assemble w h d tbl num arr with
          | some out => simp only [ht, hp, ha] at hu; exact absurd hu (by simp)
          | none => simp only [ht, hp, ha] at hu; exact absurd hu (by simp)
  · intro hx
    exact unpack_of_header_error ap ((stage_header_validation_iff hlen).mpr hx)

/-- C2 counterexample.  On the buffer `bufNeg` (stored key 5, stored
pixel-offset field 4) the decoder's pixel-offset key is the negative
Python integer -1, not the 32-bit wrap 4294967295 asserted by the claim,
and consequently the `> 128` validation gate passes where wrapped
arithmetic would reject. -/
theorem C2_no_wrap_counterexample :
    pix_off_key bufNeg ≠ wrapSub32 (u32At bufNeg 0x450) (obf_key bufNeg) ∧
    pix_off_key bufNeg = -1 ∧
    unpack bufNeg true false ≠ .error .validation :=
  ⟨by decide, by decide, by decide⟩

/-- C2 as amended.  The decoder's key subtractions are exact
arbitrary-precision integer subtractions with no reduction modulo 2^32:
identification passes precisely when the stored validation field equals
the key plus 10001 and the stored pixel-offset field is at most the key
plus 128, as exact integers. -/
theorem C2_subtraction_exact (r : List Nat) (ac ap : Bool)
    (hlen : 0x458 ≤ r.length) :
    unpack r ac ap = .error .validation ↔
      ¬(u32At r 0x438 = obf_key r + 10001 ∧
        (u32At r 0x450 : Int) ≤ (obf_key r : Int) + 128) := by
  rw [unpack_validation_iff ac ap hlen]
  unfold val_key pix_off_key
  constructor
  · intro hx hc
    obtain ⟨hc1, hc2⟩ := hc
    rcases hx with hx | hx
    · exact hx (by omega)
    · omega
  · intro hc
    by_cases hv : (u32At r 0x438 : Int) - (obf_key r : Int) = 10001
    · have hA : u32At r 0x438 = obf_key r + 10001 := by omega
      have hB : ¬((u32At r 0x450 : Int) ≤ (obf_key r : Int) + 128) :=
        fun b => hc ⟨hA, b⟩
      right
      omega
    · exact Or.inl hv

theorem C2_subtraction_exact_witness :
    unpack dbuf8 true false = .error .validation :=
  (C2_subtraction_exact dbuf8 true false (by decide)).mpr (by decide)

/-! ### Claim C4: indirect width/height resolution. -/

/-- C4 counterexample.  The buffer `bufFar` passes identification and
the `max(widthOffset, heightOffset) + 4` length guard, yet `unpack`
raises `struct.error` (offset out of range) instead of reading a width:
with key 2^32 - 10002 the width offset resolves more than a buffer
length below zero, so no width value is computed at all in the
claim's "otherwise" branch. -/
theorem C4_far_offset_counterexample :
    0x458 ≤ bufFar.length ∧ val_key bufFar = 10001 ∧
    pix_off_key bufFar ≤ 128 ∧
    max (width_off bufFar) (height_off bufFar) + 4 < (bufFar.length : Int) ∧
    img_width bufFar = none ∧
    unpack bufFar true false = .error .structError :=
  ⟨by decide, by decide, by decide, by decide, by decide, by decide⟩

/-- C4 as amended.  For identified buffers the indirect offsets follow
the claim's formulas; a buffer not longer than
`max(widthOffset, heightOffset) + 4` fails Incomplete; otherwise the two
dimension reads follow `struct.unpack_from` semantics — an offset
resolving below `-len` raises `struct.error` (escaping as a plain Python
exception, not an Incomplete failure), and when both reads resolve,
width and height are the read values minus the key. -/
theorem C4_indirect_dimension_resolution (r : List Nat) (ac ap : Bool)
    (h458 : 0x458 ≤ r.length) (hval : val_key r = 10001)
    (hpix : pix_off_key r ≤ 128) :
    width_off r = widthOffSpec r ∧ height_off r = heightOffSpec r ∧
    ((r.length : Int) ≤ max (width_off r) (height_off r) + 4 →
      unpack r ac ap = .error .incomplete) ∧
    (max (width_off r) (height_off r) + 4 < (r.length : Int) →
      ((readI32 r (width_off r) = none ∨ readI32 r (height_off r) = none) →
        unpack r ac ap = .error .structError) ∧
      (∀ wv hv, readI32 r (width_off r) = some wv →
        readI32 r (height_off r) = some hv →
        img_width r = some (wv - (obf_key r : Int)) ∧
        img_height r = some (hv - (obf_key r : Int)))) := by
  have hv2 : ¬(val_key r ≠ 10001 ∨ pix_off_key r > 128) := by
    push_neg
    exact ⟨hval, hpix⟩
  refine ⟨rfl, rfl, ?_, ?_⟩
  · intro hle
    refine unpack_of_header_error ap ?_
    unfold stage_header
    rw [if_neg (by omega), if_neg hv2, if_pos hle]
  · intro hgt
    constructor
    · intro hnone
      refine unpack_of_header_error ap ?_
      unfold stage_header
      rw [if_neg (by omega), if_neg hv2, if_neg (not_le.mpr hgt)]
      cases hw : img_width r with
      | none => cases hhe : img_height r <;> rfl
      | some wv =>
        cases hhe : img_height r with
        | none => rfl
        | some hv =>
          exfalso
          rcases hnone with hn | hn
          · rw [img_width, hn] at hw
            exact absurd hw (by simp)
          · rw [img_height, hn] at hhe
            exact absurd hhe (by simp)
    · intro wv hv hw hhe
      constructor
      · rw [img_width, hw]
        rfl
      · rw [img_height, hhe]
        rfl

theorem C4_indirect_dimension_resolution_witness :
    img_width buf8 = some (4 - (obf_key buf8 : Int)) ∧
    img_height buf8 = some (4 - (obf_key buf8 : Int)) :=
  ((C4_indirect_dimension_resolution buf8 true false (by decide) (by decide)
    (by decide)).2.2.2 (by decide)).2 4 4 (by decide) (by decide)

/-! ### Claim C5: pixel-array extraction. -/

/-- C5 counterexample.  The buffer `bufPixNeg` reaches pixel extraction
(with width 4, height 4, depth 8) and decodes successfully, but its
de-obfuscated pixel-offset key is negative (-0x45A), so the Python row
slices clamp: the first row comes out empty and the emitted pixel array
has 12 bytes, not the `|height| * rowBytes = 16` consecutive bytes the
claim describes. -/
theorem C5_negative_pixoff_counterexample :
    stage_header bufPixNeg false = .ok (4, 4, 8) ∧
    (unpack bufPixNeg false false).isOk = true ∧
    (pixArrayOf bufPixNeg 4 4 8).length ≠
      (4 : Int).natAbs * (pix_row_raw_size 4 8 + (pix_row_padding 4 8).length) :=
  ⟨rfl, rfl, by decide⟩

/-- C5 as amended.  Whenever the pixel stage runs with a non-negative
pixel-array offset and its bounds check holds, the emitted array is
exactly `|height|` rows of `rowBytes` bytes read consecutively from
offset `0x458 + pixOffKey`, each row zero-padded to a multiple of four
bytes, concatenated in file order — never reversed, also for negative
decoded heights. -/
theorem C5_pixel_rows_in_file_order (r : List Nat) (w h d : Int)
    (hoff : 0 ≤ img_pix_off r)
    (hbound : img_pix_off r + (img_pix_size w h d : Int) ≤ (r.length : Int)) :
    stage_pixels r w h d = .ok (pixArrayOf r w h d) ∧
    pixArrayOf r w h d =
      pixArraySpec r (img_pix_off r).toNat (pix_row_raw_size w d)
        ((4 - pix_row_raw_size w d % 4) % 4) h.natAbs ∧
    (∀ i, i < h.natAbs →
      ((r.drop ((img_pix_off r).toNat + i * pix_row_raw_size w d)).take
        (pix_row_raw_size w d)).length = pix_row_raw_size w d) := by
  have hsz : img_pix_size w h d = pix_row_raw_size w d * h.natAbs := rfl
  have hrow : ∀ i, i < h.natAbs →
      (img_pix_off r).toNat + i * pix_row_raw_size w d + pix_row_raw_size w d ≤
        r.length := by
    intro i hi
    have h2 : pix_row_raw_size w d * (i + 1) ≤ pix_row_raw_size w d * h.natAbs :=
      Nat.mul_le_mul_left _ hi
    rw [Nat.mul_succ] at h2
    have h4 : i * pix_row_raw_size w d = pix_row_raw_size w d * i :=
      Nat.mul_comm _ _
    omega
  refine ⟨?_, ?_, ?_⟩
  · unfold stage_pixels
    rw [if_neg (by omega)]
  · simp only [pixArrayOf, pixArraySpec]
    rw [if_neg (show ¬((h.natAbs : Int) < 0) by omega)]
    congr 1
    refine List.map_congr_left ?_
    intro i hi
    rw [List.mem_range] at hi
    have hle := hrow i hi
    have hcast : ((i * pix_row_raw_size w d : Nat) : Int) =
        (i : Int) * ((pix_row_raw_size w d : Nat) : Int) := by
      push_cast
      ring
    congr 1
    · unfold pySlice pyIdx
      have haneg : ¬(img_pix_off r + (i : Int) * ((pix_row_raw_size w d : Nat) : Int) < 0) := by
        omega
      have hbneg : ¬(img_pix_off r + (i : Int) * ((pix_row_raw_size w d : Nat) : Int) +
          ((pix_row_raw_size w d : Nat) : Int) < 0) := by omega
      rw [if_neg haneg, if_neg hbneg]
      have hm1 : min (img_pix_off r + (i : Int) * ((pix_row_raw_size w d : Nat) : Int) +
          ((pix_row_raw_size w d : Nat) : Int)).toNat r.length =
          (img_pix_off r).toNat + i * pix_row_raw_size w d + pix_row_raw_size w d := by
        omega
      have hm2 : min (img_pix_off r + (i : Int) * ((pix_row_raw_size w d : Nat) : Int)).toNat
          r.length = (img_pix_off r).toNat + i * pix_row_raw_size w d := by
        omega
      rw [hm1, hm2, List.drop_take]
      congr 1
      omega
    · unfold pix_row_padding
      congr 1
      omega
  · intro i hi
    have hle := hrow i hi
    rw [List.length_take, List.length_drop]
    omega

/-! ### Claim C7: reserved color-table bytes under strict vs lenient mode. -/

theorem getD_drop (l : List Nat) (n m : Nat) :
    (l.drop n).getD m 0 = l.getD (n + m) 0 := by
  simp [List.getD_eq_getD_get?, List.getElem?_drop]

theorem strided4_any_iff (p : Nat → Bool) :
    ∀ l : List Nat, ((strided4 l).any p = true ↔
      ∃ j, 4 * j < l.length ∧ p (l.getD (4 * j) 0) = true)
  | [] => by simp [strided4]
  | [a] => by
    constructor
    · intro hp
      refine ⟨0, by simp, ?_⟩
      simpa [strided4] using hp
    · rintro ⟨j, hj, hp⟩
      have hj0 : j = 0 := by simp at hj; omega
      subst hj0
      simpa [strided4] using hp
  | [a, b] => by
    constructor
    · intro hp
      refine ⟨0, by simp, ?_⟩
      simpa [strided4] using hp
    · rintro ⟨j, hj, hp⟩
      have hj0 : j = 0 := by simp at hj; omega
      subst hj0
      simpa [strided4] using hp
  | [a, b, c] => by
    constructor
    · intro hp
      refine ⟨0, by simp, ?_⟩
      simpa [strided4] using hp
    · rintro ⟨j, hj, hp⟩
      have hj0 : j = 0 := by simp at hj; omega
      subst hj0
      simpa [strided4] using hp
  | a :: b :: c :: e :: t => by
    have ih := strided4_any_iff p t
    constructor
    · intro hp
      rw [show strided4 (a :: b :: c :: e :: t) = a :: strided4 t from rfl,
        List.any_cons] at hp
      have hp2 : p a = true ∨ (strided4 t).any p = true := by simpa using hp
      cases hp2 with
      | inl hpa => exact ⟨0, by simp, by simpa using hpa⟩
      | inr hrest =>
        obtain ⟨j, hj, hpj⟩ := ih.mp hrest
        refine ⟨j + 1, ?_, ?_⟩
        · simp only [List.length_cons]
          omega
        · have h4 : 4 * (j + 1) = 4 * j + 4 := by ring
          rw [h4]
          exact hpj
    · rintro ⟨j, hj, hp⟩
      rw [show strided4 (a :: b :: c :: e :: t) = a :: strided4 t from rfl,
        List.any_cons]
      simp only [Bool.or_eq_true]
      cases j with
      | zero =>
        refine Or.inl ?_
        simpa using hp
      | succ j' =>
        refine Or.inr ?_
        refine ih.mpr ⟨j', ?_, ?_⟩
        · simp only [List.length_cons] at hj
          omega
        · have h4 : 4 * (j' + 1) = 4 * j' + 4 := by ring
          rw [h4] at hp
          exact hp

/-- C7.  On one and the same buffer: if strict decode reaches the
color-table stage and the selected table has a non-zero byte at a
reserved position (every 4th byte, index 4j+3), `unpack` with strict
checks fails InvalidBitmap; with strict checks off the reserved-byte
scan is skipped, and decode succeeds whenever the remaining structural
stages succeed. -/
theorem C7_reserved_byte_strict_vs_lenient (r : List Nat) (ap : Bool) :
    (∀ w h d tbl num, stage_header r true = .ok (w, h, d) →
      tableSelect r ap d = some (tbl, num) →
      (∃ j, 4 * j + 3 < tbl.length ∧ tbl.getD (4 * j + 3) 0 ≠ 0) →
      unpack r true ap = .error .invalidBitmap) ∧
    (∀ w h d tbl num arr out, stage_header r false = .ok (w, h, d) →
      stage_table r false ap d = .ok (tbl, num) →
      stage_pixels r w h d = .ok arr →
      assemble w h d tbl num arr = some out →
      unpack r false ap = .ok out) := by
  constructor
  · intro w h d tbl num hh hts hex
    have hany : (strided4 (tbl.drop 3)).any (fun x => x != 0) = true := by
      rw [strided4_any_iff]
      obtain ⟨j, hj, hne⟩ := hex
      refine ⟨j, ?_, ?_⟩
      · rw [List.length_drop]
        omega
      · rw [getD_drop, show 3 + 4 * j = 4 * j + 3 from by omega]
        simpa using hne
    have ht : stage_table r true ap d = .error .invalidBitmap := by
      simp only [stage_table, hts]
      rw [if_pos ⟨trivial, hany⟩]
    simp only [unpack, hh, ht]
  · intro w h d tbl num arr out hh ht hp ha
    simp only [unpack, hh, ht, hp, ha]

theorem C7_reserved_byte_strict_vs_lenient_witness :
    unpack buf7 true false = .error .invalidBitmap ∧
    unpack buf7 false false = .ok out7 := by
  constructor
  · exact (C7_reserved_byte_strict_vs_lenient buf7 false).1 4 4 8
      (pySlice buf7 0x20 0x420) 0 rfl rfl
      ⟨0, by decide, by decide⟩
  · exact (C7_reserved_byte_strict_vs_lenient buf7 false).2 4 4 8
      (pySlice buf7 0x20 0x420) 0 (pixArrayOf buf7 4 4 8) out7
      rfl rfl rfl rfl

theorem C5_pixel_rows_in_file_order_witness :
    stage_pixels buf8 4 4 8 = .ok (pixArrayOf buf8 4 4 8) ∧
    pixArrayOf buf8 4 4 8 =
      pixArraySpec buf8 (img_pix_off buf8).toNat (pix_row_raw_size 4 8)
        ((4 - pix_row_raw_size 4 8 % 4) % 4) (4 : Int).natAbs ∧
    (∀ i, i < (4 : Int).natAbs →
      ((buf8.drop ((img_pix_off buf8).toNat + i * pix_row_raw_size 4 8)).take
        (pix_row_raw_size 4 8)).length = pix_row_raw_size 4 8) :=
  C5_pixel_rows_in_file_order buf8 4 4 8 (by decide) (by decide)

/-! ### Claim C8: layout of the assembled bitmap. -/

theorem inI32Range_iff {v : Int} :
    inI32Range v = true ↔ -2147483648 ≤ v ∧ v < 2147483648 := by
  cases v with
  | ofNat n =>
    simp only [inI32Range, decide_eq_true_eq, Int.ofNat_eq_natCast]
    omega
  | negSucc n =>
    simp only [inI32Range, decide_eq_true_eq, Int.negSucc_eq]
    omega

theorem inU16Range_iff {v : Int} :
    inU16Range v = true ↔ 0 ≤ v ∧ v < 65536 := by
  cases v with
  | ofNat n =>
    simp only [inU16Range, decide_eq_true_eq, Int.ofNat_eq_natCast]
    omega
  | negSucc n =>
    simp only [inU16Range, Int.negSucc_eq, Bool.false_eq_true, false_iff]
    omega

theorem packU32_some {n : Nat} {bs : List Nat} (hp : packU32 n = some bs) :
    n < 4294967296 ∧ bs = le32 n := by
  unfold packU32 at hp
  split at hp
  · injection hp with hp
    exact ⟨by assumption, hp.symm⟩
  · exact absurd hp (by simp)

theorem packI32_some {v : Int} {bs : List Nat} (hp : packI32 v = some bs) :
    -2147483648 ≤ v ∧ v < 2147483648 ∧ bs = le32 (v % 4294967296).toNat := by
  unfold packI32 at hp
  split at hp
  · injection hp with hp
    rename_i hc
    obtain ⟨h1, h2⟩ := inI32Range_iff.mp hc
    exact ⟨h1, h2, hp.symm⟩
  · exact absurd hp (by simp)

theorem packU16_some {v : Int} {bs : List Nat} (hp : packU16 v = some bs) :
    0 ≤ v ∧ v < 65536 ∧ bs = le16 v.toNat := by
  unfold packU16 at hp
  split at hp
  · injection hp with hp
    rename_i hc
    obtain ⟨h1, h2⟩ := inU16Range_iff.mp hc
    exact ⟨h1, h2, hp.symm⟩
  · exact absurd hp (by simp)

/-- Inversion of a successful bitmap assembly: the output is the file
header, info header, color table and pixel array of claim C8, in that
order and with those fields. -/
theorem assemble_some_eq {w h d : Int} {tbl : List Nat} {num : Nat}
    {arr out : List Nat} (ha : assemble w h d tbl num arr = some out) :
    out = fileHeaderSpec tbl.length arr.length ++
      infoHeaderSpec w.natAbs h.natAbs d.toNat arr.length num ++ tbl ++ arr := by
  unfold assemble at ha
  cases h1 : packU32 (0x0E + 0x28 + tbl.length + arr.length) with
  | none => simp only [h1] at ha; exact absurd ha (by simp)
  | some fsize =>
  cases h2 : packU32 (0x0E + 0x28 + tbl.length) with
  | none => simp only [h1, h2] at ha; exact absurd ha (by simp)
  | some poff =>
  cases h3 : packI32 (w.natAbs : Int) with
  | none => simp only [h1, h2, h3] at ha; exact absurd ha (by simp)
  | some dibW =>
  cases h4 : packI32 (h.natAbs : Int) with
  | none => simp only [h1, h2, h3, h4] at ha; exact absurd ha (by simp)
  | some dibH =>
  cases h5 : packU16 d with
  | none => simp only [h1, h2, h3, h4, h5] at ha; exact absurd ha (by simp)
  | some dibD =>
  cases h6 : packU32 arr.length with
  | none => simp only [h1, h2, h3, h4, h5, h6] at ha; exact absurd ha (by simp)
  | some dibSz =>
  cases h7 : packU32 num with
  | none => simp only [h1, h2, h3, h4, h5, h6, h7] at ha; exact absurd ha (by simp)
  | some dibN =>
  simp only [h1, h2, h3, h4, h5, h6, h7, Option.some.injEq] at ha
  obtain ⟨hb1, he1⟩ := packU32_some h1
  obtain ⟨hb2, he2⟩ := packU32_some h2
  obtain ⟨hb3, hb3b, he3⟩ := packI32_some h3
  obtain ⟨hb4, hb4b, he4⟩ := packI32_some h4
  obtain ⟨hb5, hb5b, he5⟩ := packU16_some h5
  obtain ⟨hb6, he6⟩ := packU32_some h6
  obtain ⟨hb7, he7⟩ := packU32_some h7
  have hw32 : ((w.natAbs : Int) % 4294967296).toNat = w.natAbs := by omega
  have hh32 : ((h.natAbs : Int) % 4294967296).toNat = h.natAbs := by omega
  rw [hw32] at he3
  rw [hh32] at he4
  subst he1 he2 he3 he4 he5 he6 he7
  rw [← ha]
  rfl

/-- C8.  Every successful decode returns exactly: a 14-byte file header
(signature "BM", total size 14+40+|table|+|pixels|, two zero 16-bit
reserved fields, pixel-array offset 14+40+|table|), then a 40-byte info
header (size 40, |width|, |height|, planes 1, the decoded depth,
compression 0, pixel byte count, zero resolutions, the color-table
stage's palette count, zero important colors), then the color table,
then the pixel array — all little-endian. -/
theorem C8_output_layout (r : List Nat) (ac ap : Bool) (out : List Nat)
    (hu : unpack r ac ap = .ok out) :
    ∃ w h d tbl num arr,
      stage_header r ac = .ok (w, h, d) ∧
      stage_table r ac ap d = .ok (tbl, num) ∧
      stage_pixels r w h d = .ok arr ∧
      out = fileHeaderSpec tbl.length arr.length ++
        infoHeaderSpec w.natAbs h.natAbs d.toNat arr.length num ++ tbl ++ arr := by
  cases hh : stage_header r ac with
  | error e => rw [unpack_of_header_error ap hh] at hu; exact absurd hu (by simp)
  | ok t =>
  obtain ⟨w, h, d⟩ := t
  simp only [unpack, hh] at hu
  cases ht : stage_table r ac ap d with
  | error e => simp only [ht] at hu; exact absurd hu (by simp)
  | ok t2 =>
  obtain ⟨tbl, num⟩ := t2
  cases hp : stage_pixels r w h d with
  | error e => simp only [ht, hp] at hu; exact absurd hu (by simp)
  | ok arr =>
  cases ha : assemble w h d tbl num arr with
  | none => simp only [ht, hp, ha] at hu; exact absurd hu (by simp)
  | some out2 =>
  simp only [ht, hp, ha, Except.ok.injEq] at hu
  refine ⟨w, h, d, tbl, num, arr, rfl, ht, hp, ?_⟩
  rw [← hu]
  exact assemble_some_eq ha

theorem C8_output_layout_witness :
    ∃ w h d tbl num arr,
      stage_header buf8 true = .ok (w, h, d) ∧
      stage_table buf8 true false d = .ok (tbl, num) ∧
      stage_pixels buf8 w h d = .ok arr ∧
      out8 = fileHeaderSpec tbl.length arr.length ++
        infoHeaderSpec w.natAbs h.natAbs d.toNat arr.length num ++ tbl ++ arr :=
  C8_output_layout buf8 true false out8 rfl

/-! ### Claim C1: the encode/decode round trip. -/

/-- C1 failing input.  `pack` succeeds on the supported 4 by 4 image
`cimg1` (one-entry RGB palette), but pads the 4-byte color table to
0x400 bytes with 0x20 (ASCII space) fill bytes — `bytes.ljust`'s
default fill character — so the reserved positions of the emitted table
are non-zero and the default strict decode fails InvalidBitmap instead
of reproducing the image. -/
theorem C1_roundtrip_padding_bug :
    pack cimg1 = .ok packed1 ∧
    (pySlice packed1 0x20 0x420).getD 7 0 = 0x20 ∧
    unpack packed1 true false = .error .invalidBitmap :=
  ⟨rfl, rfl, rfl⟩

/-! ### Claim C9: layout of the packed resource. -/

theorem getD_replicate_zero (n k : Nat) : (List.replicate n (0 : Nat)).getD k 0 = 0 := by
  induction n generalizing k with
  | zero => cases k <;> rfl
  | succ n ih =>
    cases k with
    | zero => rfl
    | succ k => exact ih k

/-- A Python slice delimited by the exact bounds of a middle chunk of a
concatenation returns that chunk. -/
theorem slice_of_concat (pre mid post : List Nat) (a b : Int)
    (ha : (pre.length : Int) = a) (hb : a + mid.length = b) :
    pySlice (pre ++ mid ++ post) a b = mid := by
  unfold pySlice pyIdx
  have h1 : ¬(b < 0) := by omega
  have h2 : ¬(a < 0) := by omega
  rw [if_neg h1, if_neg h2]
  have hlen : (pre ++ mid ++ post).length =
      pre.length + (mid.length + post.length) := by
    simp
  have hm1 : min b.toNat (pre ++ mid ++ post).length =
      pre.length + mid.length := by omega
  have hm2 : min a.toNat (pre ++ mid ++ post).length = pre.length := by omega
  rw [hm1, hm2]
  rw [List.take_left' (show (pre ++ mid).length = pre.length + mid.length by simp)]
  exact List.drop_left' rfl

/-- Reading one byte inside the bounds of a slice reads the slice. -/
theorem getD_slice_eq (l : List Nat) (a b : Int) (i : Nat) (h0 : 0 ≤ a)
    (h1 : a ≤ (i : Int)) (h2 : (i : Int) < b) (h3 : b ≤ (l.length : Int)) :
    l.getD i 0 = (pySlice l a b).getD (i - a.toNat) 0 := by
  unfold pySlice pyIdx
  rw [if_neg (show ¬(b < 0) by omega), if_neg (show ¬(a < 0) by omega)]
  have hm1 : min b.toNat l.length = b.toNat := by omega
  have hm2 : min a.toNat l.length = a.toNat := by omega
  rw [hm1, hm2, getD_drop, show a.toNat + (i - a.toNat) = i from by omega]
  rw [List.getD_eq_getD_get?, List.getD_eq_getD_get?]
  rw [List.get?_eq_getElem?, List.get?_eq_getElem?, List.getElem?_take,
    if_pos (show i < b.toNat by omega)]

theorem palEntry_length {e : Nat × Nat × Nat} {bs : List Nat}
    (hp : palEntry e = some bs) : bs.length = 4 := by
  unfold palEntry at hp
  split at hp
  · injection hp with hp
    rw [← hp]
    rfl
  · exact absurd hp (by simp)

theorem palBytes_length (pal : List (Nat × Nat × Nat)) :
    ∀ es : List (List Nat),
      mapO palEntry pal = some es → es.flatten.length = 4 * pal.length := by
  induction pal with
  | nil =>
    intro es h
    unfold mapO at h
    injection h with h
    rw [← h]
    rfl
  | cons e ps ih =>
    intro es h
    unfold mapO at h
    cases hb : palEntry e with
    | none => rw [hb] at h; exact absurd h (by simp)
    | some b =>
      cases hps : mapO palEntry ps with
      | none => rw [hb, hps] at h; exact absurd h (by simp)
      | some bs =>
        rw [hb, hps] at h
        injection h with h
        rw [← h]
        have ihb := ih bs hps
        simp only [List.flatten_cons, List.length_append, ihb,
          palEntry_length hb, List.length_cons]
        ring

/-- Inversion of a successful canonical-container assembly. -/
theorem resourceBody_some_eq {w h d : Nat} {palette pixels out : List Nat}
    (hr : resourceBody w h d palette pixels = some out) :
    w < 2147483648 ∧ h < 2147483648 ∧ d < 65536 ∧
      out = List.replicate 0x04 0 ++ le32 w ++ List.replicate 0x18 0 ++
        palette ++ le32 h ++ List.replicate 0x0C 0 ++ le16 d ++
        List.replicate 0x06 0 ++ le32 10001 ++ List.replicate 0x1C 0 ++
        pixels := by
  unfold resourceBody at hr
  cases h1 : packI32 (w : Int) with
  | none => rw [h1] at hr; exact absurd hr (by simp)
  | some wb =>
  rw [h1] at hr
  cases h2 : packI32 (h : Int) with
  | none => rw [h2] at hr; exact absurd hr (by simp)
  | some hb =>
  rw [h2] at hr
  cases h3 : packU16 (d : Int) with
  | none => rw [h3] at hr; exact absurd hr (by simp)
  | some db =>
  rw [h3] at hr
  cases h4 : packU32 10001 with
  | none => rw [h4] at hr; exact absurd hr (by simp)
  | some vb =>
  rw [h4] at hr
  simp only [Option.some.injEq] at hr
  obtain ⟨hb1, hb1b, he1⟩ := packI32_some h1
  obtain ⟨hb2, hb2b, he2⟩ := packI32_some h2
  obtain ⟨hb3, hb3b, he3⟩ := packU16_some h3
  obtain ⟨-, he4⟩ := packU32_some h4
  have hw32 : ((w : Int) % 4294967296).toNat = w := by omega
  have hh32 : ((h : Int) % 4294967296).toNat = h := by omega
  have hd16 : ((d : Int)).toNat = d := by omega
  rw [hw32] at he1
  rw [hh32] at he2
  rw [hd16] at he3
  subst he1 he2 he3 he4
  exact ⟨by omega, by omega, by omega, hr.symm⟩

/-- Inversion of a successful `pack`: the output is the canonical
container built from the image's dimensions, its mode's depth, a
0x400-byte palette region and the bottom-up pixel bytes. -/
theorem pack_ok_resourceBody {img : PilImage} {out : List Nat}
    (hp : pack img = .ok out) :
    ∃ palette pixels, palette.length = 0x400 ∧
      resourceBody (pilWidth img) (pilHeight img) (pilDepth img)
        palette pixels = some out := by
  cases img with
  | P palRGB w h pal pix =>
    simp only [pack] at hp
    split at hp
    · exact absurd hp (by simp)
    split at hp
    · exact absurd hp (by simp)
    rename_i hrgb hlen
    cases hpb : palBytes pal with
    | none => simp only [hpb] at hp; exact absurd hp (by simp)
    | some tblRaw =>
      simp only [hpb] at hp
      cases hrw : mapO (rowP pix w) (List.range h) with
      | none => simp only [hrw] at hp; exact absurd hp (by simp)
      | some rows =>
        simp only [hrw, liftPy] at hp
        cases hres : resourceBody w h 8 (ljustSp tblRaw 0x400)
            rows.reverse.flatten with
        | none => simp only [hres] at hp; exact absurd hp (by simp)
        | some o =>
          simp only [hres, Except.ok.injEq] at hp
          refine ⟨ljustSp tblRaw 0x400, rows.reverse.flatten, ?_, ?_⟩
          · unfold ljustSp
            have htr : tblRaw.length = 4 * pal.length := by
              unfold palBytes at hpb
              cases hmo : mapO palEntry pal with
              | none => rw [hmo] at hpb; exact absurd hpb (by simp)
              | some es =>
                rw [hmo] at hpb
                injection hpb with hpb
                rw [← hpb]
                exact palBytes_length pal es hmo
            rw [List.length_append, List.length_replicate]
            omega
          · rw [hp] at hres
            exact hres
  | RGB w h pix =>
    simp only [pack] at hp
    cases hrw : mapO (rowRGB pix w) (List.range h) with
    | none => simp only [hrw] at hp; exact absurd hp (by simp)
    | some rows =>
      simp only [hrw, liftPy] at hp
      cases hres : resourceBody w h 24 (List.replicate 0x400 0)
          rows.reverse.flatten with
      | none => simp only [hres] at hp; exact absurd hp (by simp)
      | some o =>
        simp only [hres, Except.ok.injEq] at hp
        refine ⟨List.replicate 0x400 0, rows.reverse.flatten, by simp, ?_⟩
        rw [hp] at hres
        exact hres

/-- C9.  Every container `pack` emits carries the width at 0x004-0x008,
a 1024-byte color-table region at 0x020-0x420, the height at
0x420-0x424, the 16-bit depth at 0x430-0x432, the validation constant
10001 at 0x438-0x43C and the pixel array from 0x458 on; every byte
before 0x458 outside the named fields is zero, so in particular the
obfuscation-key field at 0x448 and the width-index, height-index and
pixel-offset key fields decode to zero. -/
theorem C9_canonical_layout (img : PilImage) (out : List Nat)
    (hp : pack img = .ok out) :
    ∃ palette pixels,
      palette.length = 0x400 ∧
      pySlice out 0x004 0x008 = le32 (pilWidth img) ∧
      pySlice out 0x020 0x420 = palette ∧
      pySlice out 0x420 0x424 = le32 (pilHeight img) ∧
      pySlice out 0x430 0x432 = le16 (pilDepth img) ∧
      pySlice out 0x438 0x43C = le32 10001 ∧
      out.drop 0x458 = pixels ∧
      (∀ i, i < 0x458 → ¬namedFieldC9 i → out.getD i 0 = 0) ∧
      u32At out 0x448 = 0 ∧ u32At out 0x440 = 0 ∧
      u32At out 0x018 = 0 ∧ u32At out 0x450 = 0 := by
  obtain ⟨palette, pixels, hpal, hres⟩ := pack_ok_resourceBody hp
  obtain ⟨hw31, hh31, hd16, hout⟩ := resourceBody_some_eq hres
  refine ⟨palette, pixels, hpal, ?_⟩
  set w := pilWidth img
  set h := pilHeight img
  set d := pilDepth img
  have hlen : out.length = 0x458 + pixels.length := by
    rw [hout]
    simp only [List.length_append, List.length_replicate, hpal, le32, le16,
      List.length_cons, List.length_nil]
  have hw : pySlice out 0x004 0x008 = le32 w := by
    have e : out = List.replicate 0x04 0 ++ le32 w ++ (List.replicate 0x18 0 ++
        palette ++ le32 h ++ List.replicate 0x0C 0 ++ le16 d ++
          List.replicate 0x06 0 ++ le32 10001 ++ List.replicate 0x1C 0 ++
          pixels) := by
      rw [hout]
      simp [List.append_assoc]
    rw [e]
    exact slice_of_concat _ _ _ _ _ (by simp) (by simp [le32])
  have hpal2 : pySlice out 0x020 0x420 = palette := by
    have e : out = (List.replicate 0x04 0 ++ le32 w ++ List.replicate 0x18 0) ++
        palette ++ (le32 h ++ List.replicate 0x0C 0 ++ le16 d ++
          List.replicate 0x06 0 ++ le32 10001 ++ List.replicate 0x1C 0 ++
          pixels) := by
      rw [hout]
      simp [List.append_assoc]
    rw [e]
    exact slice_of_concat _ _ _ _ _ (by simp [le32]) (by simp [hpal])
  have hh2 : pySlice out 0x420 0x424 = le32 h := by
    have e : out = (List.replicate 0x04 0 ++ le32 w ++ List.replicate 0x18 0 ++
        palette) ++ le32 h ++ (List.replicate 0x0C 0 ++ le16 d ++
          List.replicate 0x06 0 ++ le32 10001 ++ List.replicate 0x1C 0 ++
          pixels) := by
      rw [hout]
      simp [List.append_assoc]
    rw [e]
    exact slice_of_concat _ _ _ _ _ (by simp [le32, hpal]) (by simp [le32, hpal])
  have hd2 : pySlice out 0x430 0x432 = le16 d := by
    have e : out = (List.replicate 0x04 0 ++ le32 w ++ List.replicate 0x18 0 ++
        palette ++ le32 h ++ List.replicate 0x0C 0) ++ le16 d ++
        (List.replicate 0x06 0 ++ le32 10001 ++ List.replicate 0x1C 0 ++
          pixels) := by
      rw [hout]
      simp [List.append_assoc]
    rw [e]
    exact slice_of_concat _ _ _ _ _ (by simp [le32, hpal]) (by simp [le16, le32, hpal])
  have hv2 : pySlice out 0x438 0x43C = le32 10001 := by
    have e : out = (List.replicate 0x04 0 ++ le32 w ++ List.replicate 0x18 0 ++
        palette ++ le32 h ++ List.replicate 0x0C 0 ++ le16 d ++
          List.replicate 0x06 0) ++ le32 10001 ++
        (List.replicate 0x1C 0 ++ pixels) := by
      rw [hout]
      simp [List.append_assoc]
    rw [e]
    exact slice_of_concat _ _ _ _ _ (by simp [le16, le32, hpal]) (by simp [le32, le16, hpal])
  have hpix : out.drop 0x458 = pixels := by
    have e : out = (List.replicate 0x04 0 ++ le32 w ++ List.replicate 0x18 0 ++
        palette ++ le32 h ++ List.replicate 0x0C 0 ++ le16 d ++
          List.replicate 0x06 0 ++ le32 10001 ++ List.replicate 0x1C 0) ++
        pixels := by
      rw [hout]
    rw [e]
    exact List.drop_left' (by simp [le16, le32, hpal])
  have hz : ∀ i, i < 0x458 → ¬namedFieldC9 i → out.getD i 0 = 0 := by
    have hz1 : pySlice out 0 0x004 = List.replicate 0x04 0 := by
      rw [hout]
      have e : (List.replicate 0x04 (0 : Nat) ++ le32 w ++ List.replicate 0x18 0 ++
          palette ++ le32 h ++ List.replicate 0x0C 0 ++ le16 d ++
            List.replicate 0x06 0 ++ le32 10001 ++ List.replicate 0x1C 0 ++
            pixels) = ([] : List Nat) ++ List.replicate 0x04 0 ++ (le32 w ++
          List.replicate 0x18 0 ++ palette ++ le32 h ++ List.replicate 0x0C 0 ++
          le16 d ++ List.replicate 0x06 0 ++ le32 10001 ++
          List.replicate 0x1C 0 ++ pixels) := by
        simp [List.append_assoc]
      rw [e]
      exact slice_of_concat _ _ _ _ _ (by simp) (by simp)
    have hz2 : pySlice out 0x008 0x020 = List.replicate 0x18 0 := by
      have e : out = (List.replicate 0x04 0 ++ le32 w) ++
          List.replicate 0x18 0 ++ (palette ++ le32 h ++
          List.replicate 0x0C 0 ++ le16 d ++ List.replicate 0x06 0 ++
          le32 10001 ++ List.replicate 0x1C 0 ++ pixels) := by
        rw [hout]
        simp [List.append_assoc]
      rw [e]
      exact slice_of_concat _ _ _ _ _ (by simp [le32]) (by simp)
    have hz3 : pySlice out 0x424 0x430 = List.replicate 0x0C 0 := by
      have e : out = (List.replicate 0x04 0 ++ le32 w ++ List.replicate 0x18 0 ++
          palette ++ le32 h) ++ List.replicate 0x0C 0 ++ (le16 d ++
          List.replicate 0x06 0 ++ le32 10001 ++ List.replicate 0x1C 0 ++
          pixels) := by
        rw [hout]
        simp [List.append_assoc]
      rw [e]
      exact slice_of_concat _ _ _ _ _ (by simp [le32, hpal]) (by simp)
    have hz4 : pySlice out 0x432 0x438 = List.replicate 0x06 0 := by
      have e : out = (List.replicate 0x04 0 ++ le32 w ++ List.replicate 0x18 0 ++
          palette ++ le32 h ++ List.replicate 0x0C 0 ++ le16 d) ++
          List.replicate 0x06 0 ++ (le32 10001 ++ List.replicate 0x1C 0 ++
          pixels) := by
        rw [hout]
        simp [List.append_assoc]
      rw [e]
      exact slice_of_concat _ _ _ _ _ (by simp [le16, le32, hpal]) (by simp)
    have hz5 : pySlice out 0x43C 0x458 = List.replicate 0x1C 0 := by
      have e : out = (List.replicate 0x04 0 ++ le32 w ++ List.replicate 0x18 0 ++
          palette ++ le32 h ++ List.replicate 0x0C 0 ++ le16 d ++
            List.replicate 0x06 0 ++ le32 10001) ++ List.replicate 0x1C 0 ++
          pixels := by
        rw [hout]
      rw [e]
      exact slice_of_concat _ _ _ _ _ (by simp [le16, le32, hpal]) (by simp)
    intro i hi hn
    unfold namedFieldC9 at hn
    by_cases c1 : i < 0x004
    · rw [getD_slice_eq out 0 0x004 i (by omega) (by omega) (by omega) (by omega), hz1]
      exact getD_replicate_zero _ _
    by_cases c2 : i < 0x008
    · exact absurd (Or.inl ⟨by omega, by omega⟩) hn
    by_cases c3 : i < 0x020
    · rw [getD_slice_eq out 0x008 0x020 i (by omega) (by omega) (by omega) (by omega), hz2]
      exact getD_replicate_zero _ _
    by_cases c4 : i < 0x424
    · by_cases c5 : i < 0x420
      · exact absurd (Or.inr (Or.inl ⟨by omega, by omega⟩)) hn
      · exact absurd (Or.inr (Or.inr (Or.inl ⟨by omega, by omega⟩))) hn
    by_cases c6 : i < 0x430
    · rw [getD_slice_eq out 0x424 0x430 i (by omega) (by omega) (by omega) (by omega), hz3]
      exact getD_replicate_zero _ _
    by_cases c7 : i < 0x432
    · exact absurd (Or.inr (Or.inr (Or.inr (Or.inl ⟨by omega, by omega⟩)))) hn
    by_cases c8 : i < 0x438
    · rw [getD_slice_eq out 0x432 0x438 i (by omega) (by omega) (by omega) (by omega), hz4]
      exact getD_replicate_zero _ _
    by_cases c9 : i < 0x43C
    · exact absurd (Or.inr (Or.inr (Or.inr (Or.inr ⟨by omega, by omega⟩)))) hn
    · rw [getD_slice_eq out 0x43C 0x458 i (by omega) (by omega) (by omega) (by omega), hz5]
      exact getD_replicate_zero _ _
  refine ⟨hw, hpal2, hh2, hd2, hv2, hpix, hz, ?_, ?_, ?_, ?_⟩
  · unfold u32At
    rw [hz 0x448 (by omega) (by decide), hz 0x449 (by omega) (by decide),
      hz 0x44A (by omega) (by decide), hz 0x44B (by omega) (by decide)]
  · unfold u32At
    rw [hz 0x440 (by omega) (by decide), hz 0x441 (by omega) (by decide),
      hz 0x442 (by omega) (by decide), hz 0x443 (by omega) (by decide)]
  · unfold u32At
    rw [hz 0x018 (by omega) (by decide), hz 0x019 (by omega) (by decide),
      hz 0x01A (by omega) (by decide), hz 0x01B (by omega) (by decide)]
  · unfold u32At
    rw [hz 0x450 (by omega) (by decide), hz 0x451 (by omega) (by decide),
      hz 0x452 (by omega) (by decide), hz 0x453 (by omega) (by decide)]

theorem C9_canonical_layout_witness :
    ∃ palette pixels,
      palette.length = 0x400 ∧
      pySlice packed1 0x004 0x008 = le32 (pilWidth cimg1) ∧
      pySlice packed1 0x020 0x420 = palette ∧
      pySlice packed1 0x420 0x424 = le32 (pilHeight cimg1) ∧
      pySlice packed1 0x430 0x432 = le16 (pilDepth cimg1) ∧
      pySlice packed1 0x438 0x43C = le32 10001 ∧
      packed1.drop 0x458 = pixels ∧
      (∀ i, i < 0x458 → ¬namedFieldC9 i → packed1.getD i 0 = 0) ∧
      u32At packed1 0x448 = 0 ∧ u32At packed1 0x440 = 0 ∧
      u32At packed1 0x018 = 0 ∧ u32At packed1 0x450 = 0 :=
  C9_canonical_layout cimg1 packed1 rfl

end FSU
